import Mathlib

/-!
Verification development for the seabird dataset-distribution utilities
(`scripts/utils/CsvDatasetDistribution.py` and
`scripts/utils/JsonDatasetDistribution.py`).

The two scripts compute the frequency distribution of one field across the
records of a dataset (a CSV table, respectively a JSON list of records),
write a summary table `[field, "count", "percent"]`, and render charts.
This file gives a shallow embedding of the data model and of the
aggregation, validation and legend-building logic, and proves the
documented properties about it.

Modelling conventions:
* CSV cells and JSON scalars are embedded exactly as data; the `float`
  percentage arithmetic of the scripts is embedded as exact rational
  arithmetic over the integer `count`/`total` pair, with the `"%.3f"`
  rendering modelled as round-half-even to three decimal digits (the
  rounding mode used by the fixed-point formatting of Python).
* Writing a file is modelled by returning the rows that are written;
  a raised exception is modelled by an `Except.error` result, which
  carries no rows (the scripts raise before opening any output file).
-/

namespace SeabirdDist

/-- A parsed JSON value, as produced by `json.load`.  `obj` models the
parsed Python dict (its field names are unique, duplicates having been
collapsed by the parser), `null` models Python `None`. -/
inductive Json where
  | null : Json
  | bool (b : Bool) : Json
  | num (n : Int) : Json
  | str (s : String) : Json
  | arr (elems : List Json) : Json
  | obj (fields : List (String × Json)) : Json

mutual

/-- Decidable equality of JSON values (by hand: the deriving handler does
not treat the nested list occurrences). -/
def Json.decEq : (a b : Json) → Decidable (a = b)
  | .null, .null => isTrue rfl
  | .bool a, .bool b =>
    if h : a = b then isTrue (by rw [h]) else isFalse (by intro hc; cases hc; exact h rfl)
  | .num a, .num b =>
    if h : a = b then isTrue (by rw [h]) else isFalse (by intro hc; cases hc; exact h rfl)
  | .str a, .str b =>
    if h : a = b then isTrue (by rw [h]) else isFalse (by intro hc; cases hc; exact h rfl)
  | .arr xs, .arr ys =>
    match Json.decEqList xs ys with
    | isTrue h => isTrue (by rw [h])
    | isFalse h => isFalse (by intro hc; cases hc; exact h rfl)
  | .obj xs, .obj ys =>
    match Json.decEqFields xs ys with
    | isTrue h => isTrue (by rw [h])
    | isFalse h => isFalse (by intro hc; cases hc; exact h rfl)
  | .null, .bool _ => isFalse (fun h => Json.noConfusion h)
  | .null, .num _ => isFalse (fun h => Json.noConfusion h)
  | .null, .str _ => isFalse (fun h => Json.noConfusion h)
  | .null, .arr _ => isFalse (fun h => Json.noConfusion h)
  | .null, .obj _ => isFalse (fun h => Json.noConfusion h)
  | .bool _, .null => isFalse (fun h => Json.noConfusion h)
  | .bool _, .num _ => isFalse (fun h => Json.noConfusion h)
  | .bool _, .str _ => isFalse (fun h => Json.noConfusion h)
  | .bool _, .arr _ => isFalse (fun h => Json.noConfusion h)
  | .bool _, .obj _ => isFalse (fun h => Json.noConfusion h)
  | .num _, .null => isFalse (fun h => Json.noConfusion h)
  | .num _, .bool _ => isFalse (fun h => Json.noConfusion h)
  | .num _, .str _ => isFalse (fun h => Json.noConfusion h)
  | .num _, .arr _ => isFalse (fun h => Json.noConfusion h)
  | .num _, .obj _ => isFalse (fun h => Json.noConfusion h)
  | .str _, .null => isFalse (fun h => Json.noConfusion h)
  | .str _, .bool _ => isFalse (fun h => Json.noConfusion h)
  | .str _, .num _ => isFalse (fun h => Json.noConfusion h)
  | .str _, .arr _ => isFalse (fun h => Json.noConfusion h)
  | .str _, .obj _ => isFalse (fun h => Json.noConfusion h)
  | .arr _, .null => isFalse (fun h => Json.noConfusion h)
  | .arr _, .bool _ => isFalse (fun h => Json.noConfusion h)
  | .arr _, .num _ => isFalse (fun h => Json.noConfusion h)
  | .arr _, .str _ => isFalse (fun h => Json.noConfusion h)
  | .arr _, .obj _ => isFalse (fun h => Json.noConfusion h)
  | .obj _, .null => isFalse (fun h => Json.noConfusion h)
  | .obj _, .bool _ => isFalse (fun h => Json.noConfusion h)
  | .obj _, .num _ => isFalse (fun h => Json.noConfusion h)
  | .obj _, .str _ => isFalse (fun h => Json.noConfusion h)
  | .obj _, .arr _ => isFalse (fun h => Json.noConfusion h)

/-- Decidable equality of JSON value lists. -/
def Json.decEqList : (xs ys : List Json) → Decidable (xs = ys)
  | [], [] => isTrue rfl
  | x :: xs, y :: ys =>
    match Json.decEq x y, Json.decEqList xs ys with
    | isTrue h1, isTrue h2 => isTrue (by rw [h1, h2])
    | isFalse h1, _ => isFalse (by intro hc; injection hc with hh ht; exact h1 hh)
    | _, isFalse h2 => isFalse (by intro hc; injection hc with hh ht; exact h2 ht)
  | [], _ :: _ => isFalse (fun h => List.noConfusion h)
  | _ :: _, [] => isFalse (fun h => List.noConfusion h)

/-- Decidable equality of JSON object field lists. -/
def Json.decEqFields : (xs ys : List (String × Json)) → Decidable (xs = ys)
  | [], [] => isTrue rfl
  | (k, v) :: xs, (l, w) :: ys =>
    if hk : k = l then
      match Json.decEq v w, Json.decEqFields xs ys with
      | isTrue h1, isTrue h2 => isTrue (by rw [hk, h1, h2])
      | isFalse h1, _ =>
        isFalse (by intro hc; injection hc with hh ht; exact h1 (congrArg Prod.snd hh))
      | _, isFalse h2 => isFalse (by intro hc; injection hc with hh ht; exact h2 ht)
    else
      isFalse (by intro hc; injection hc with hh ht; exact hk (congrArg Prod.fst hh))
  | [], _ :: _ => isFalse (fun h => List.noConfusion h)
  | _ :: _, [] => isFalse (fun h => List.noConfusion h)

end

instance : DecidableEq Json := Json.decEq

/-- First-match association-list lookup: `fields.get(key)` on the parsed
dict (field names are unique, so first match is the dict lookup). -/
def assocGet (key : String) : List (String × Json) → Option Json
  | [] => none
  | (k, v) :: rest => if k = key then some v else assocGet key rest

variable {α : Type} [DecidableEq α]

/-- The distinct elements of `xs` in order of first occurrence: the key
order of a Python `dict`/`Counter` built by one pass over `xs`. -/
def firstOccs : List α → List α
  | [] => []
  | x :: xs => x :: (firstOccs xs).filter (fun y => y ≠ x)

/-- Python `Counter(xs)[v]`: the number of occurrences of `v` in `xs`. -/
def countVal (xs : List α) (v : α) : ℕ :=
  xs.count v

/-- Python `Counter(xs).items()`: each distinct value paired with its number of
occurrences, in first-occurrence order. -/
def counterItems (xs : List α) : List (α × ℕ) :=
  (firstOccs xs).map (fun v => (v, xs.count v))

/-- Insert `p` into a count-descending list, before the first entry whose
count does not exceed the count of `p` (so earlier-inserted equal counts stay first). -/
def insertDesc (p : α × ℕ) : List (α × ℕ) → List (α × ℕ)
  | [] => [p]
  | q :: qs => if p.2 < q.2 then q :: insertDesc p qs else p :: q :: qs

/-- Stable sort by descending count: `Counter.most_common()` (a stable
descending sort of the counter items). -/
def mostCommon : List (α × ℕ) → List (α × ℕ)
  | [] => []
  | p :: ps => insertDesc p (mostCommon ps)

/-- Round-half-even of the rational `num / den` to the nearest natural
number (the rounding used by the fixed-point float formatting of Python). -/
def rheDiv (num den : ℕ) : ℕ :=
  if 2 * (num % den) < den then num / den
  else if den < 2 * (num % den) then num / den + 1
  else if num / den % 2 = 0 then num / den else num / den + 1

/-- The three characters of `n % 1000` zero-padded to width 3. -/
def pad3 (n : ℕ) : String :=
  String.mk [Nat.digitChar (n / 100 % 10), Nat.digitChar (n / 10 % 10), Nat.digitChar (n % 10)]

/-- Rendering `f"{num / den * 100.0:.3f}"`: the percentage `100 * num / den`
rendered with exactly three decimal digits, round half even. -/
def fmt3 (num den : ℕ) : String :=
  let m := rheDiv (100000 * num) den
  toString (m / 1000) ++ "." ++ pad3 (m % 1000)

/-- The `percent` cell written for a count `count` out of `total`:
`(count / total * 100.0) if total > 0 else 0.0`, formatted `"%.3f"`. -/
def pctString (count total : ℕ) : String :=
  if 0 < total then fmt3 count total else fmt3 0 1

/-- One data row of the written summary CSV. -/
structure SummaryRow (α : Type) where
  value : α
  count : ℕ
  percent : String
deriving DecidableEq

/-- Sum of the `count` column of a summary table. -/
def sumCounts (rows : List (SummaryRow α)) : ℕ :=
  (rows.map (fun r => r.count)).sum

/-- The grand total used for percentages: the sum of all counter counts
(`counts.sum()` / `sum(counts.values())`). -/
def totalOf (xs : List α) : ℕ :=
  ((counterItems xs).map (fun p => p.2)).sum

/-- The data rows written for the observation list `xs`: one row per
distinct value, most common first, with count and formatted percent.
(The CSV path iterates `value_counts` which pandas returns sorted by
descending count; the JSON path iterates `most_common()`.) -/
def summaryRows (xs : List α) : List (SummaryRow α) :=
  (mostCommon (counterItems xs)).map (fun p => ⟨p.1, p.2, pctString p.2 (totalOf xs)⟩)

/-- The errors raised by the two aggregators. -/
inductive AggError where
  | fieldNotFound (column : String) (source : String) : AggError
  | malformedSource (source : String) : AggError
deriving DecidableEq

instance {ε σ : Type} [DecidableEq ε] [DecidableEq σ] : DecidableEq (Except ε σ) := fun a b =>
  match a, b with
  | .ok x, .ok y =>
    if h : x = y then isTrue (by rw [h]) else isFalse (by intro hc; cases hc; exact h rfl)
  | .error x, .error y =>
    if h : x = y then isTrue (by rw [h]) else isFalse (by intro hc; cases hc; exact h rfl)
  | .ok _, .error _ => isFalse (fun h => Except.noConfusion h)
  | .error _, .ok _ => isFalse (fun h => Except.noConfusion h)

/-- A CSV file read into a data frame: header names and rows of cells.
A cell is `none` when the entry is missing (pandas `NaN`), otherwise the
value of the cell. -/
structure Table where
  header : List String
  rows : List (List (Option String))
deriving DecidableEq

/-- The series `df[column]`: one cell per row, taken at the position of the column
in the header. -/
def columnCells (t : Table) (column : String) : List (Option String) :=
  t.rows.map (fun r => r.getD (t.header.indexOf column) none)

/-- Function `compute_column_distribution` (CsvDatasetDistribution.py): check the
column exists, count the values of the column (`value_counts(dropna=False)`,
so `NaN` is counted too), and write one summary row per distinct value.
On failure the function raises before creating the output directory or
opening the output file, so the error result carries no rows. -/
def compute_column_distribution (source : String) (t : Table) (column : String) :
    Except AggError (List (SummaryRow (Option String))) :=
  if column ∈ t.header then .ok (summaryRows (columnCells t column))
  else .error (.fieldNotFound column source)

/-- The observation `rec.get(key)` contributed by one JSON record: `none`
for a non-dict record, a missing key, or a `null` value (all of which are
Python `None`), otherwise the value at the key. -/
def recordValue (key : String) (rec : Json) : Option Json :=
  match rec with
  | .obj fields =>
    match assocGet key fields with
    | some Json.null => none
    | other => other
  | _ => none

/-- The observation list extracted from the record list (`values` in
`compute_key_distribution`). -/
def extractValues (key : String) (recs : List Json) : List (Option Json) :=
  recs.map (recordValue key)

/-- Function `compute_key_distribution` (JsonDatasetDistribution.py): require the
top-level JSON value to be a list, extract one observation per record
(missing keys and non-dict records count as `None`), count with
`Counter`, and write rows in `most_common()` order.  On failure the
function raises before creating the output directory or opening the
output file, so the error result carries no rows. -/
def compute_key_distribution (source : String) (data : Json) (key : String) :
    Except AggError (List (SummaryRow (Option Json))) :=
  match data with
  | .arr recs => .ok (summaryRows (extractValues key recs))
  | _ => .error (.malformedSource source)

/-- A record that lacks the requested key outright: it is not a dict, or
it is a dict with no entry for the key. -/
def missingObs (key : String) (rec : Json) : Bool :=
  match rec with
  | .obj fields => (assocGet key fields).isNone
  | _ => true

/-- The errors raised by `plot_distribution` while validating the summary
table it read back. -/
inductive PlotError where
  | tooFewColumns (source : String) : PlotError
  | columnNotFound (column : String) (source : String) : PlotError
  | countNotFound (source : String) : PlotError
deriving DecidableEq

/-- The input-validation stage of `plot_distribution`: reject a summary
table with fewer than two columns, fall back to the first column when no
value column is named, then require the value column and the `count`
column to be present.  Returns the resolved value column on success. -/
def plot_distribution_check (source : String) (cols : List String)
    (value_column : Option String) : Except PlotError String :=
  if cols.length < 2 then .error (.tooFewColumns source)
  else if value_column.getD (cols.headD "") ∈ cols then
    if "count" ∈ cols then .ok (value_column.getD (cols.headD ""))
    else .error (.countNotFound source)
  else .error (.columnNotFound (value_column.getD (cols.headD "")) source)

/-- Rendering `f"{num / den * 100.0:.1f}"`: the percentage `100 * num / den`
rendered with one decimal digit, round half even. -/
def fmt1 (num den : ℕ) : String :=
  let m := rheDiv (1000 * num) den
  toString (m / 10) ++ "." ++ String.mk [Nat.digitChar (m % 10)]

/-- The legend labels built by the pie-chart stage of
`compute_and_plot_distribution` from the (value, count) pairs of the
re-read summary table: `value (percent%)` per wedge when the total count
is positive, the bare value name when it is zero. -/
def pieLegend (rows : List (String × ℕ)) : List String :=
  if 0 < (rows.map (fun p => p.2)).sum then
    rows.map (fun p => p.1 ++ " (" ++ fmt1 p.2 ((rows.map (fun q => q.2)).sum) ++ "%)")
  else
    rows.map (fun p => p.1)

/-- Modelled from the spec: the repository has no re-aggregation routine,
so the round-trip re-aggregation of §8 ("re-reading the written summary
table and re-aggregating its own count column by value yields the same
table") is modelled from the wording of the spec: group the summary rows by
value, sum the `count` column within each group, and recompute percents
from the new grand total. -/
def regroup (rows : List (SummaryRow α)) : List (α × ℕ) :=
  (firstOccs (rows.map (fun r => r.value))).map
    (fun v => (v, sumCounts (rows.filter (fun r => r.value = v))))

/-- Modelled from the spec (continued): recompute the percent of each group
from the regrouped grand total, giving the re-aggregated summary table. -/
def reaggregate (rows : List (SummaryRow α)) : List (SummaryRow α) :=
  (regroup rows).map
    (fun p => (⟨p.1, p.2, pctString p.2 (((regroup rows).map (fun q => q.2)).sum)⟩ : SummaryRow α))

/-! ### Counter lemmas -/

theorem mem_firstOccs {xs : List α} {a : α} : a ∈ firstOccs xs ↔ a ∈ xs := by
  induction xs with
  | nil => simp [firstOccs]
  | cons x xs ih =>
    by_cases hax : a = x <;> simp [firstOccs, List.mem_filter, ih, hax]

theorem nodup_firstOccs (xs : List α) : (firstOccs xs).Nodup := by
  induction xs with
  | nil => simp [firstOccs]
  | cons x xs ih =>
    refine (ih.filter _).cons ?_
    simp [List.mem_filter]

theorem firstOccs_of_nodup {xs : List α} (h : xs.Nodup) : firstOccs xs = xs := by
  induction xs with
  | nil => rfl
  | cons x xs ih =>
    rcases List.nodup_cons.mp h with ⟨hx, hxs⟩
    rw [firstOccs, ih hxs, List.filter_eq_self.mpr]
    intro a ha
    simp only [ne_eq, decide_eq_true_eq]
    exact fun hax => hx (hax ▸ ha)

theorem sum_filter_ne (l : List α) (hl : l.Nodup) (x : α) (f : α → ℕ) :
    ((l.filter (fun y => y ≠ x)).map f).sum + (if x ∈ l then f x else 0) = (l.map f).sum := by
  induction l with
  | nil => simp
  | cons a t ih =>
    rcases List.nodup_cons.mp hl with ⟨ha, ht⟩
    by_cases hax : a = x
    · subst hax
      rw [List.filter_cons_of_neg (by simp), if_pos (List.mem_cons_self a t)]
      have hfil : t.filter (fun y => y ≠ a) = t := by
        refine List.filter_eq_self.mpr ?_
        intro y hy
        simp only [ne_eq, decide_not, Bool.not_eq_eq_eq_not, Bool.not_true, decide_eq_false_iff_not]
        exact fun h => ha (h ▸ hy)
      rw [hfil, List.map_cons, List.sum_cons]
      omega
    · rw [List.filter_cons_of_pos (by simpa using hax)]
      have hmem : (x ∈ a :: t) ↔ (x ∈ t) := by
        constructor
        · intro h
          rcases List.mem_cons.mp h with h1 | h2
          · exact absurd h1.symm hax
          · exact h2
        · exact fun h => List.mem_cons_of_mem a h
      simp only [hmem, List.map_cons, List.sum_cons]
      have := ih ht
      omega

theorem totalOf_eq_length (xs : List α) : totalOf xs = xs.length := by
  induction xs with
  | nil => simp [totalOf, counterItems, firstOccs]
  | cons x t ih =>
    simp only [totalOf, counterItems] at ih ⊢
    simp only [firstOccs, List.map_cons, List.map_map, List.sum_cons] at ih ⊢
    have hcongr : ((firstOccs t).filter (fun y => y ≠ x)).map
          ((fun p : α × ℕ => p.2) ∘ fun v => (v, (x :: t).count v))
        = ((firstOccs t).filter (fun y => y ≠ x)).map (fun v => t.count v) := by
      refine List.map_congr_left ?_
      intro v hv
      have hvx : v ≠ x := by
        have := (List.mem_filter.mp hv).2
        simpa using this
      simp [Function.comp, List.count_cons_of_ne hvx]
    rw [hcongr]
    have hsum := sum_filter_ne (firstOccs t) (nodup_firstOccs t) x (fun v => t.count v)
    have hlen : ((firstOccs t).map (fun v => t.count v)).sum = t.length := by
      have := ih
      simpa [Function.comp] using this
    rw [hlen] at hsum
    have hcx : (x :: t).count x = t.count x + 1 := List.count_cons_self x t
    by_cases hxt : x ∈ t
    · rw [if_pos (mem_firstOccs.mpr hxt)] at hsum
      simp only [Function.comp, List.length_cons, hcx]
      omega
    · rw [if_neg (fun hc => hxt (mem_firstOccs.mp hc))] at hsum
      have hc0 : t.count x = 0 := List.count_eq_zero.mpr hxt
      simp only [Function.comp, List.length_cons, hcx, hc0]
      omega

/-! ### Stable descending sort lemmas -/

omit [DecidableEq α] in
theorem insertDesc_perm (p : α × ℕ) (l : List (α × ℕ)) : (insertDesc p l).Perm (p :: l) := by
  induction l with
  | nil => simp [insertDesc]
  | cons q qs ih =>
    simp only [insertDesc]
    split
    · exact (ih.cons q).trans (List.Perm.swap p q qs)
    · exact List.Perm.refl _

theorem mostCommon_perm (l : List (α × ℕ)) : (mostCommon l).Perm l := by
  induction l with
  | nil => exact List.Perm.refl _
  | cons p ps ih => exact (insertDesc_perm p (mostCommon ps)).trans (ih.cons p)

theorem insertDesc_pairwise {p : α × ℕ} {l : List (α × ℕ)}
    (hl : l.Pairwise (fun a b => b.2 ≤ a.2)) :
    (insertDesc p l).Pairwise (fun a b => b.2 ≤ a.2) := by
  induction l with
  | nil => simp [insertDesc]
  | cons q qs ih =>
    rcases List.pairwise_cons.mp hl with ⟨hq, hqs⟩
    simp only [insertDesc]
    split
    · rename_i hlt
      refine List.pairwise_cons.mpr ⟨?_, ih hqs⟩
      intro r hr
      rcases List.mem_cons.mp ((insertDesc_perm p qs).mem_iff.mp hr) with rfl | hr2
      · exact Nat.le_of_lt hlt
      · exact hq r hr2
    · rename_i hge
      push_neg at hge
      refine List.pairwise_cons.mpr ⟨?_, hl⟩
      intro r hr
      rcases List.mem_cons.mp hr with rfl | hr2
      · exact hge
      · exact Nat.le_trans (hq r hr2) hge

theorem mostCommon_pairwise (l : List (α × ℕ)) :
    (mostCommon l).Pairwise (fun a b => b.2 ≤ a.2) := by
  induction l with
  | nil => simp [mostCommon]
  | cons p ps ih => exact insertDesc_pairwise ih

omit [DecidableEq α] in
theorem insertDesc_filter (c : ℕ) (p : α × ℕ) (l : List (α × ℕ)) :
    (insertDesc p l).filter (fun x => x.2 = c) = (p :: l).filter (fun x => x.2 = c) := by
  induction l with
  | nil => rfl
  | cons q qs ih =>
    simp only [insertDesc]
    split
    · rename_i hlt
      by_cases hq : q.2 = c
      · have hp : ¬ p.2 = c := by omega
        simp [List.filter_cons, hq, hp, ih]
      · simp [List.filter_cons, hq, ih]
    · rfl

theorem mostCommon_filter (c : ℕ) (l : List (α × ℕ)) :
    (mostCommon l).filter (fun x => x.2 = c) = l.filter (fun x => x.2 = c) := by
  induction l with
  | nil => rfl
  | cons p ps ih =>
    rw [mostCommon, insertDesc_filter, List.filter_cons, List.filter_cons, ih]

/-! ### Summary-row lemmas -/

theorem summaryRows_perm (xs : List α) :
    (summaryRows xs).Perm ((counterItems xs).map
      (fun p => (⟨p.1, p.2, pctString p.2 (totalOf xs)⟩ : SummaryRow α))) :=
  (mostCommon_perm (counterItems xs)).map _

theorem sumCounts_summaryRows (xs : List α) : sumCounts (summaryRows xs) = xs.length := by
  have h := ((summaryRows_perm xs).map (fun r => r.count)).sum_eq
  unfold sumCounts
  rw [h, List.map_map]
  have : ((fun r : SummaryRow α => r.count) ∘
      fun p : α × ℕ => (⟨p.1, p.2, pctString p.2 (totalOf xs)⟩ : SummaryRow α))
      = fun p : α × ℕ => p.2 := rfl
  rw [this]
  exact totalOf_eq_length xs

theorem mem_summaryRows {xs : List α} {r : SummaryRow α} :
    r ∈ summaryRows xs ↔
      ∃ v, v ∈ xs ∧ r = ⟨v, xs.count v, pctString (xs.count v) (totalOf xs)⟩ := by
  unfold summaryRows
  rw [((mostCommon_perm (counterItems xs)).map _).mem_iff]
  simp only [counterItems, List.map_map, List.mem_map, Function.comp]
  constructor
  · rintro ⟨v, hv, rfl⟩
    exact ⟨v, mem_firstOccs.mp hv, rfl⟩
  · rintro ⟨v, hv, rfl⟩
    exact ⟨v, mem_firstOccs.mpr hv, rfl⟩

theorem summaryRows_values_perm (xs : List α) :
    ((summaryRows xs).map (fun r => r.value)).Perm (firstOccs xs) := by
  unfold summaryRows
  rw [List.map_map]
  have h1 : ((fun r : SummaryRow α => r.value) ∘
      fun p : α × ℕ => (⟨p.1, p.2, pctString p.2 (totalOf xs)⟩ : SummaryRow α))
      = fun p : α × ℕ => p.1 := rfl
  rw [h1]
  have h2 := (mostCommon_perm (counterItems xs)).map (fun p : α × ℕ => p.1)
  refine h2.trans ?_
  rw [counterItems, List.map_map]
  have h3 : ((fun p : α × ℕ => p.1) ∘ fun v => (v, xs.count v)) = id := rfl
  rw [h3, List.map_id]

theorem nodup_summaryRows_values (xs : List α) :
    ((summaryRows xs).map (fun r => r.value)).Nodup :=
  (summaryRows_values_perm xs).nodup_iff.mpr (nodup_firstOccs xs)

theorem filter_value_of_nodup {rows : List (SummaryRow α)} {r : SummaryRow α}
    (hnodup : (rows.map (fun x => x.value)).Nodup) (hr : r ∈ rows) :
    rows.filter (fun x => x.value = r.value) = [r] := by
  induction rows with
  | nil => cases hr
  | cons a t ih =>
    rw [List.map_cons, List.nodup_cons] at hnodup
    rcases hnodup with ⟨hav, ht⟩
    rcases List.mem_cons.mp hr with rfl | hrt
    · rw [List.filter_cons_of_pos (by simp)]
      rw [List.filter_eq_nil_iff.mpr]
      intro x hx
      simp only [decide_eq_true_eq]
      exact fun heq => hav (heq ▸ List.mem_map_of_mem (fun y => y.value) hx)
    · have hne : ¬ a.value = r.value :=
        fun h => hav (h ▸ List.mem_map_of_mem (fun y => y.value) hrt)
      rw [List.filter_cons_of_neg (by simpa using hne)]
      exact ih ht hrt

/-! ### Percent-formatting lemmas -/

theorem rheDiv_close (num den : ℕ) (hden : 0 < den) :
    |(rheDiv num den : ℚ) - num / den| ≤ 1 / 2 := by
  have hdpos : (0 : ℚ) < den := by exact_mod_cast hden
  have hd0 : (den : ℚ) ≠ 0 := ne_of_gt hdpos
  have key : (den : ℚ) * ((num / den : ℕ) : ℚ) + ((num % den : ℕ) : ℚ) = (num : ℚ) := by
    exact_mod_cast Nat.div_add_mod num den
  have hval : (num : ℚ) / den = ((num / den : ℕ) : ℚ) + ((num % den : ℕ) : ℚ) / den := by
    rw [← key]
    field_simp
    ring
  have hle : ((num % den : ℕ) : ℚ) / den ≤ 1 := by
    rw [div_le_one hdpos]
    exact_mod_cast (Nat.mod_lt num hden).le
  unfold rheDiv
  split_ifs with h1 h2 h3
  · rw [hval]
    have habs : (((num / den : ℕ) : ℚ)) - (((num / den : ℕ) : ℚ) + ((num % den : ℕ) : ℚ) / den)
        = -(((num % den : ℕ) : ℚ) / den) := by ring
    rw [habs, abs_neg, abs_of_nonneg (by positivity), div_le_iff₀ hdpos]
    have hc : (2 : ℚ) * ((num % den : ℕ) : ℚ) < den := by exact_mod_cast h1
    linarith
  · have hrge : (1 : ℚ) / 2 ≤ ((num % den : ℕ) : ℚ) / den := by
      rw [le_div_iff₀ hdpos]
      have hc : (den : ℚ) < 2 * ((num % den : ℕ) : ℚ) := by exact_mod_cast h2
      linarith
    rw [hval]
    push_cast
    have habs : (((num / den : ℕ) : ℚ) + 1)
          - (((num / den : ℕ) : ℚ) + ((num % den : ℕ) : ℚ) / den)
        = 1 - ((num % den : ℕ) : ℚ) / den := by ring
    rw [habs, abs_of_nonneg (by linarith)]
    linarith
  · have heq : 2 * (num % den) = den := by omega
    have hhalf : ((num % den : ℕ) : ℚ) / den = 1 / 2 := by
      rw [div_eq_div_iff hd0 (by norm_num : (2 : ℚ) ≠ 0)]
      have hc : (2 : ℚ) * ((num % den : ℕ) : ℚ) = den := by exact_mod_cast heq
      linarith
    rw [hval, hhalf]
    have habs : (((num / den : ℕ) : ℚ)) - (((num / den : ℕ) : ℚ) + 1 / 2) = -(1 / 2) := by ring
    rw [habs, abs_neg, abs_of_nonneg (by norm_num)]
  · have heq : 2 * (num % den) = den := by omega
    have hhalf : ((num % den : ℕ) : ℚ) / den = 1 / 2 := by
      rw [div_eq_div_iff hd0 (by norm_num : (2 : ℚ) ≠ 0)]
      have hc : (2 : ℚ) * ((num % den : ℕ) : ℚ) = den := by exact_mod_cast heq
      linarith
    rw [hval, hhalf]
    push_cast
    have habs : (((num / den : ℕ) : ℚ) + 1) - (((num / den : ℕ) : ℚ) + 1 / 2) = 1 / 2 := by
      ring
    rw [habs, abs_of_nonneg (by norm_num)]

/-- The three decimal digits written for `count` out of `total` denote a
rational within half a unit in the last place of the exact percentage. -/
theorem pct_digits_close (count total : ℕ) (h : 0 < total) :
    |(rheDiv (100000 * count) total : ℚ) / 1000 - 100 * count / total| ≤ 1 / 2000 := by
  have hclose := rheDiv_close (100000 * count) total h
  have hcast : ((100000 * count : ℕ) : ℚ) = 100000 * count := by push_cast; ring
  rw [hcast] at hclose
  have heq : (rheDiv (100000 * count) total : ℚ) / 1000 - 100 * count / total
      = ((rheDiv (100000 * count) total : ℚ) - 100000 * count / total) / 1000 := by
    have htot : (total : ℚ) ≠ 0 := by
      exact_mod_cast h.ne'
    field_simp
    ring
  rw [heq, abs_div, abs_of_pos (by norm_num : (0:ℚ) < 1000)]
  linarith

theorem fmt3_shape (num den : ℕ) : ∃ a b, fmt3 num den = a ++ "." ++ b ∧ b.length = 3 :=
  ⟨toString (rheDiv (100000 * num) den / 1000), pad3 (rheDiv (100000 * num) den % 1000),
    rfl, rfl⟩

theorem pctString_shape (count total : ℕ) :
    ∃ a b, pctString count total = a ++ "." ++ b ∧ b.length = 3 := by
  unfold pctString
  split_ifs
  · exact fmt3_shape count total
  · exact fmt3_shape 0 1

theorem pctString_zero (count : ℕ) : pctString count 0 = "0.000" := rfl

theorem pctString_digits (count total : ℕ) (h : 0 < total) :
    pctString count total
      = toString (rheDiv (100000 * count) total / 1000) ++ "."
        ++ pad3 (rheDiv (100000 * count) total % 1000) := by
  rw [pctString, if_pos h]
  rfl

/-! ### Bridge lemmas -/

theorem filter_of_map {β γ : Type} (l : List β) (f : β → γ) (p : γ → Bool) :
    (l.map f).filter p = (l.filter (fun a => p (f a))).map f := by
  induction l with
  | nil => rfl
  | cons a t ih =>
    simp only [List.map_cons, List.filter_cons]
    by_cases h : p (f a) = true
    · simp [h, ih]
    · simp [h, ih]

theorem summaryRows_percent {xs : List α} {r : SummaryRow α} (hr : r ∈ summaryRows xs) :
    r.percent = pctString r.count (sumCounts (summaryRows xs)) := by
  rcases mem_summaryRows.mp hr with ⟨v, hv, rfl⟩
  rw [sumCounts_summaryRows, ← totalOf_eq_length]

theorem summaryRows_count_pos {xs : List α} {r : SummaryRow α} (hr : r ∈ summaryRows xs) :
    0 < r.count := by
  rcases mem_summaryRows.mp hr with ⟨v, hv, rfl⟩
  exact List.count_pos_iff.mpr hv

theorem summaryRows_pairwise (xs : List α) :
    (summaryRows xs).Pairwise (fun a b => b.count ≤ a.count) := by
  unfold summaryRows
  exact List.Pairwise.map _ (fun a b h => h) (mostCommon_pairwise _)

theorem summaryRows_ties (xs : List α) (c : ℕ) :
    ((summaryRows xs).filter (fun r => r.count = c)).map (fun r => r.value)
      = (firstOccs xs).filter (fun v => xs.count v = c) := by
  unfold summaryRows
  rw [filter_of_map]
  have hp : (fun p : α × ℕ =>
        decide ((⟨p.1, p.2, pctString p.2 (totalOf xs)⟩ : SummaryRow α).count = c))
      = fun x : α × ℕ => decide (x.2 = c) := rfl
  rw [hp, mostCommon_filter, List.map_map]
  have hcomp : ((fun r : SummaryRow α => r.value) ∘
        fun p : α × ℕ => (⟨p.1, p.2, pctString p.2 (totalOf xs)⟩ : SummaryRow α))
      = fun p : α × ℕ => p.1 := rfl
  rw [hcomp, counterItems, filter_of_map, List.map_map]
  have hp2 : (fun v : α => decide ((v, xs.count v).2 = c))
      = fun v : α => decide (xs.count v = c) := rfl
  rw [hp2]
  have hid : ((fun p : α × ℕ => p.1) ∘ fun v : α => (v, xs.count v)) = id := rfl
  rw [hid, List.map_id]

theorem csv_ok_inv {src : String} {t : Table} {column : String}
    {rows : List (SummaryRow (Option String))}
    (h : compute_column_distribution src t column = .ok rows) :
    rows = summaryRows (columnCells t column) := by
  unfold compute_column_distribution at h
  split_ifs at h
  injection h with h
  exact h.symm

theorem json_ok_inv {src : String} {data : Json} {key : String}
    {rows : List (SummaryRow (Option Json))}
    (h : compute_key_distribution src data key = .ok rows) :
    ∃ recs, data = Json.arr recs ∧ rows = summaryRows (extractValues key recs) := by
  cases data with
  | arr recs =>
    injection h with h
    exact ⟨recs, rfl, h.symm⟩
  | null => exact Except.noConfusion h
  | bool b => exact Except.noConfusion h
  | num n => exact Except.noConfusion h
  | str s => exact Except.noConfusion h
  | obj fields => exact Except.noConfusion h

theorem recordValue_none_of_missing {key : String} {rec : Json}
    (h : missingObs key rec = true) : recordValue key rec = none := by
  cases rec with
  | obj fields =>
    rw [missingObs, Option.isNone_iff_eq_none] at h
    simp [recordValue, h]
  | null => rfl
  | bool b => rfl
  | num n => rfl
  | str s => rfl
  | arr elems => rfl

theorem countVal_nil (a : α) : countVal [] a = 0 := rfl

theorem countVal_cons (xs : List α) (a b : α) :
    countVal (b :: xs) a = countVal xs a + if a = b then 1 else 0 := by
  unfold countVal
  rw [List.count_cons]
  congr 1
  by_cases h : a = b
  · simp [h]
  · simp only [h, if_false, beq_iff_eq]
    rw [if_neg (fun hc => h hc.symm)]

theorem countP_missing_le (key : String) (recs : List Json) :
    recs.countP (missingObs key) ≤ countVal (extractValues key recs) none := by
  induction recs with
  | nil => simp [extractValues, countVal_nil]
  | cons rec t ih =>
    rw [extractValues, List.map_cons] at *
    rw [List.countP_cons, countVal_cons]
    by_cases h : missingObs key rec = true
    · have hv := recordValue_none_of_missing h
      rw [if_pos h, hv, if_pos rfl]
      omega
    · rw [if_neg h]
      split_ifs <;> omega

theorem regroup_eq {rows : List (SummaryRow α)}
    (hnodup : (rows.map (fun r => r.value)).Nodup) :
    regroup rows = rows.map (fun r => (r.value, r.count)) := by
  unfold regroup
  rw [firstOccs_of_nodup hnodup, List.map_map]
  refine List.map_congr_left ?_
  intro r hr
  simp only [Function.comp]
  rw [filter_value_of_nodup hnodup hr]
  simp [sumCounts]

theorem reaggregate_eq_self {rows : List (SummaryRow α)}
    (hnodup : (rows.map (fun r => r.value)).Nodup)
    (hpct : ∀ r ∈ rows, r.percent = pctString r.count (sumCounts rows)) :
    reaggregate rows = rows := by
  unfold reaggregate
  rw [regroup_eq hnodup, List.map_map, List.map_map]
  have htot : ((rows.map fun r => ((fun p : α × ℕ => p.2) ∘
      fun r : SummaryRow α => (r.value, r.count)) r)).sum = sumCounts rows := rfl
  have hmap : (rows.map (((fun p : α × ℕ =>
        (⟨p.1, p.2, pctString p.2 ((rows.map ((fun q : α × ℕ => q.2) ∘
          fun r : SummaryRow α => (r.value, r.count))).sum)⟩ : SummaryRow α)) ∘
        fun r : SummaryRow α => (r.value, r.count))))
      = rows.map (fun r : SummaryRow α =>
        (⟨r.value, r.count, pctString r.count (sumCounts rows)⟩ : SummaryRow α)) := rfl
  rw [hmap]
  have hself : ∀ r ∈ rows,
      (⟨r.value, r.count, pctString r.count (sumCounts rows)⟩ : SummaryRow α) = r := by
    intro r hr
    have hp := hpct r hr
    cases r with
    | mk v c p =>
      simp only at hp
      rw [hp]
  rw [List.map_congr_left hself]
  simp

theorem summaryRow_percent_props {xs : List α} {r : SummaryRow α} (hr : r ∈ summaryRows xs) :
    r.percent = pctString r.count (sumCounts (summaryRows xs)) ∧
    (∃ a b, r.percent = a ++ "." ++ b ∧ b.length = 3) ∧
    (0 < sumCounts (summaryRows xs) →
      |(rheDiv (100000 * r.count) (sumCounts (summaryRows xs)) : ℚ) / 1000
        - 100 * r.count / (sumCounts (summaryRows xs))| ≤ 1 / 2000) ∧
    (sumCounts (summaryRows xs) = 0 → r.percent = "0.000") := by
  have hp := summaryRows_percent hr
  refine ⟨hp, ?_, ?_, ?_⟩
  · rw [hp]
    exact pctString_shape _ _
  · intro hpos
    exact pct_digits_close _ _ hpos
  · intro h0
    rw [hp, h0]
    exact pctString_zero _

/-! ### Example inputs (the worked examples of the specification) -/

/-- The CSV example of the spec: a `species_name` column with values
`[cat, dog, cat, bird]`. -/
def exampleTable : Table :=
  ⟨["id", "species_name"],
   [[some "1", some "cat"], [some "2", some "dog"],
    [some "3", some "cat"], [some "4", some "bird"]]⟩

/-- The JSON example of the spec: records
`[{"k":"a"}, {"k":"a"}, {}, {"k":"b"}]`. -/
def exampleRecs : List Json :=
  [.obj [("k", .str "a")], .obj [("k", .str "a")], .obj [], .obj [("k", .str "b")]]

/-! ### Claims -/

/-- C1: for every input source (CSV table or JSON list of records) and
every field selector accepted without error, the summary table produced by
the aggregator partitions the input: the sum of the count column over all
written rows equals the number of input records, each record contributing
exactly one observation (its field value, or the null bucket when
absent). -/
theorem claim1_partition :
    (∀ (src : String) (t : Table) (column : String)
        (rows : List (SummaryRow (Option String))),
        compute_column_distribution src t column = .ok rows →
        sumCounts rows = t.rows.length) ∧
    (∀ (src : String) (data : Json) (key : String)
        (rows : List (SummaryRow (Option Json))),
        compute_key_distribution src data key = .ok rows →
        ∃ recs, data = Json.arr recs ∧ sumCounts rows = recs.length) := by
  constructor
  · intro src t column rows h
    rw [csv_ok_inv h, sumCounts_summaryRows]
    simp [columnCells]
  · intro src data key rows h
    obtain ⟨recs, rfl, hrows⟩ := json_ok_inv h
    refine ⟨recs, rfl, ?_⟩
    rw [hrows, sumCounts_summaryRows]
    simp [extractValues]

/-- Witness for C1: on the CSV example table the four input rows are
partitioned into counts summing to 4. -/
theorem claim1_partition_witness :
    sumCounts (summaryRows (columnCells exampleTable "species_name")) = 4 := by
  have h := claim1_partition.1 "data/split_test.csv" exampleTable "species_name"
    (summaryRows (columnCells exampleTable "species_name")) (by decide)
  simpa using h

/-- C2: for every distinct value row written by either aggregator, the
percent field equals `100 * count / total` rendered with exactly three
decimal digits, where `total` is the sum of all counts; and for an empty
source (`total = 0`) every percent written is `0.000`.  (The rendering is
witnessed by the written digits being within half a unit in the last
place of the exact rational percentage.) -/
theorem claim2_percent :
    (∀ (src : String) (t : Table) (column : String)
        (rows : List (SummaryRow (Option String))) (r : SummaryRow (Option String)),
        compute_column_distribution src t column = .ok rows → r ∈ rows →
        r.percent = pctString r.count (sumCounts rows) ∧
        (∃ a b, r.percent = a ++ "." ++ b ∧ b.length = 3) ∧
        (0 < sumCounts rows →
          |(rheDiv (100000 * r.count) (sumCounts rows) : ℚ) / 1000
            - 100 * r.count / (sumCounts rows)| ≤ 1 / 2000) ∧
        (sumCounts rows = 0 → r.percent = "0.000")) ∧
    (∀ (src : String) (data : Json) (key : String)
        (rows : List (SummaryRow (Option Json))) (r : SummaryRow (Option Json)),
        compute_key_distribution src data key = .ok rows → r ∈ rows →
        r.percent = pctString r.count (sumCounts rows) ∧
        (∃ a b, r.percent = a ++ "." ++ b ∧ b.length = 3) ∧
        (0 < sumCounts rows →
          |(rheDiv (100000 * r.count) (sumCounts rows) : ℚ) / 1000
            - 100 * r.count / (sumCounts rows)| ≤ 1 / 2000) ∧
        (sumCounts rows = 0 → r.percent = "0.000")) := by
  constructor
  · intro src t column rows r h hr
    rw [csv_ok_inv h] at hr ⊢
    exact summaryRow_percent_props hr
  · intro src data key rows r h hr
    obtain ⟨recs, rfl, hrows⟩ := json_ok_inv h
    rw [hrows] at hr ⊢
    exact summaryRow_percent_props hr

/-- Witness for C2: the `a` row of the JSON example carries a
three-decimal percent string. -/
theorem claim2_percent_witness :
    ∃ a b, (⟨some (Json.str "a"), 2, "50.000"⟩ : SummaryRow (Option Json)).percent
      = a ++ "." ++ b ∧ b.length = 3 := by
  have h := claim2_percent.2 "data/metadata_balanced_t100.json" (Json.arr exampleRecs) "k"
    (summaryRows (extractValues "k" exampleRecs))
    ⟨some (Json.str "a"), 2, "50.000"⟩ (by decide) (by decide)
  exact h.2.1

/-- C3: the CSV aggregator fails with a field-not-found error naming the
column and source whenever the requested column is absent from the
header; the JSON aggregator fails with a malformed-source error whenever
the top-level JSON value is not a list; in both cases the result is an
error carrying no rows (the scripts raise before opening any output
file, so nothing at all is written on failure). -/
theorem claim3_errors :
    (∀ (src : String) (t : Table) (column : String), column ∉ t.header →
        compute_column_distribution src t column
          = .error (.fieldNotFound column src)) ∧
    (∀ (src : String) (data : Json) (key : String), (∀ recs, data ≠ Json.arr recs) →
        compute_key_distribution src data key = .error (.malformedSource src)) := by
  constructor
  · intro src t column h
    rw [compute_column_distribution, if_neg h]
  · intro src data key h
    cases data with
    | arr recs => exact absurd rfl (h recs)
    | null => rfl
    | bool b => rfl
    | num n => rfl
    | str s => rfl
    | obj fields => rfl

/-- Witness for C3 at a concrete absent column and a concrete non-list
JSON value. -/
theorem claim3_errors_witness :
    compute_column_distribution "data/split_test.csv" exampleTable "weight"
        = .error (.fieldNotFound "weight" "data/split_test.csv")
      ∧ compute_key_distribution "data/meta.json" (Json.obj []) "k"
        = .error (.malformedSource "data/meta.json") := by
  constructor
  · exact claim3_errors.1 "data/split_test.csv" exampleTable "weight" (by decide)
  · exact claim3_errors.2 "data/meta.json" (Json.obj []) "k"
      (fun recs hc => Json.noConfusion hc)

/-- C4: for every JSON source that is a list, the JSON aggregator never
raises; a record that lacks the requested key or is not itself a
key-value map is counted under a single distinguished null bucket, which
appears in the summary table as its own (unique) entry, whose count is
the number of records observed as null. -/
theorem claim4_null_bucket :
    (∀ (src key : String) (recs : List Json),
        ∃ rows, compute_key_distribution src (Json.arr recs) key = .ok rows) ∧
    (∀ (src key : String) (recs : List Json)
        (rows : List (SummaryRow (Option Json))),
        compute_key_distribution src (Json.arr recs) key = .ok rows →
        (∃ rec ∈ recs, missingObs key rec = true) →
        ∃ r, rows.filter (fun x => x.value = none) = [r] ∧
          r.value = none ∧
          r.count = countVal (extractValues key recs) none ∧
          recs.countP (missingObs key) ≤ r.count) := by
  constructor
  · intro src key recs
    exact ⟨summaryRows (extractValues key recs), rfl⟩
  · intro src key recs rows h hex
    obtain ⟨recs2, heq, hrows⟩ := json_ok_inv h
    injection heq with heq
    subst heq
    subst hrows
    obtain ⟨rec, hrec, hmiss⟩ := hex
    have hnone : (none : Option Json) ∈ extractValues key recs :=
      List.mem_map.mpr ⟨rec, hrec, recordValue_none_of_missing hmiss⟩
    refine ⟨⟨none, countVal (extractValues key recs) none,
      pctString (countVal (extractValues key recs) none)
        (totalOf (extractValues key recs))⟩, ?_, rfl, rfl, ?_⟩
    · exact filter_value_of_nodup (nodup_summaryRows_values _)
        (mem_summaryRows.mpr ⟨none, hnone, rfl⟩)
    · exact countP_missing_le key recs

/-- Witness for C4: in the JSON example the empty record (an empty dict) is
counted under the unique null-bucket row. -/
theorem claim4_null_bucket_witness :
    ∃ r, ((summaryRows (extractValues "k" exampleRecs)).filter
        (fun x => x.value = none)) = [r]
      ∧ r.value = none
      ∧ r.count = countVal (extractValues "k" exampleRecs) none
      ∧ exampleRecs.countP (missingObs "k") ≤ r.count :=
  claim4_null_bucket.2 "data/meta.json" "k" exampleRecs
    (summaryRows (extractValues "k" exampleRecs)) (by decide)
    ⟨Json.obj [], by decide, rfl⟩

/-- C5: for every JSON source accepted by the JSON aggregator, the rows
of the written summary table are ordered most-common-first: the count
column is non-increasing from the first row to the last. -/
theorem claim5_sorted :
    ∀ (src : String) (data : Json) (key : String)
      (rows : List (SummaryRow (Option Json))),
      compute_key_distribution src data key = .ok rows →
      rows.Pairwise (fun a b => b.count ≤ a.count) := by
  intro src data key rows h
  obtain ⟨recs, rfl, hrows⟩ := json_ok_inv h
  rw [hrows]
  exact summaryRows_pairwise _

/-- Witness for C5 on the JSON example records. -/
theorem claim5_sorted_witness :
    (summaryRows (extractValues "k" exampleRecs)).Pairwise
      (fun a b => b.count ≤ a.count) :=
  claim5_sorted "data/meta.json" (Json.arr exampleRecs) "k"
    (summaryRows (extractValues "k" exampleRecs)) (by decide)

/-- C6: summarization is an idempotent round-trip: re-aggregating the
count column of a written summary table by value (grouping rows by value,
summing counts and recomputing percents from the new total) yields the
same table, for the output of either aggregator. -/
theorem claim6_roundtrip :
    (∀ (src : String) (t : Table) (column : String)
        (rows : List (SummaryRow (Option String))),
        compute_column_distribution src t column = .ok rows →
        reaggregate rows = rows) ∧
    (∀ (src : String) (data : Json) (key : String)
        (rows : List (SummaryRow (Option Json))),
        compute_key_distribution src data key = .ok rows →
        reaggregate rows = rows) := by
  constructor
  · intro src t column rows h
    rw [csv_ok_inv h]
    exact reaggregate_eq_self (nodup_summaryRows_values _)
      (fun r hr => summaryRows_percent hr)
  · intro src data key rows h
    obtain ⟨recs, rfl, hrows⟩ := json_ok_inv h
    rw [hrows]
    exact reaggregate_eq_self (nodup_summaryRows_values _)
      (fun r hr => summaryRows_percent hr)

/-- Witness for C6 on the CSV example table. -/
theorem claim6_roundtrip_witness :
    reaggregate (summaryRows (columnCells exampleTable "species_name"))
      = summaryRows (columnCells exampleTable "species_name") :=
  claim6_roundtrip.1 "data/split_test.csv" exampleTable "species_name"
    (summaryRows (columnCells exampleTable "species_name")) (by decide)

/-- C7: for every summary table consumed by the pie chart renderer, each
legend entry of each wedge is the value followed by its percent of the
total summary count when the total is positive, and exactly the bare
value name with no percentage when the total is 0. -/
theorem claim7_pie_legend :
    ∀ rows : List (String × ℕ),
      (0 < (rows.map (fun p => p.2)).sum →
        pieLegend rows = rows.map
          (fun p => p.1 ++ " (" ++ fmt1 p.2 ((rows.map (fun q => q.2)).sum) ++ "%)"))
      ∧ ((rows.map (fun p => p.2)).sum = 0 →
        pieLegend rows = rows.map (fun p => p.1)) := by
  intro rows
  constructor
  · intro h
    rw [pieLegend, if_pos h]
  · intro h
    rw [pieLegend, if_neg (by omega)]

/-- Witness for C7: concrete legend labels for a summary with total 4. -/
theorem claim7_pie_legend_witness :
    pieLegend [("cat", 2), ("dog", 1), ("bird", 1)]
      = ["cat (50.0%)", "dog (25.0%)", "bird (25.0%)"] := by
  have h := (claim7_pie_legend [("cat", 2), ("dog", 1), ("bird", 1)]).1 (by decide)
  rw [h]
  decide

/-- C8: every count written to the summary table by either aggregator is
a strictly positive integer: a value appears as a summary row only if it
occurred in at least one input record, so no zero-count rows are ever
emitted. -/
theorem claim8_counts_positive :
    (∀ (src : String) (t : Table) (column : String)
        (rows : List (SummaryRow (Option String))) (r : SummaryRow (Option String)),
        compute_column_distribution src t column = .ok rows → r ∈ rows →
        0 < r.count) ∧
    (∀ (src : String) (data : Json) (key : String)
        (rows : List (SummaryRow (Option Json))) (r : SummaryRow (Option Json)),
        compute_key_distribution src data key = .ok rows → r ∈ rows →
        0 < r.count) := by
  constructor
  · intro src t column rows r h hr
    rw [csv_ok_inv h] at hr
    exact summaryRows_count_pos hr
  · intro src data key rows r h hr
    obtain ⟨recs, rfl, hrows⟩ := json_ok_inv h
    rw [hrows] at hr
    exact summaryRows_count_pos hr

/-- Witness for C8: the null-bucket row of the JSON example has a
positive count. -/
theorem claim8_counts_positive_witness :
    0 < (⟨none, 1, "25.000"⟩ : SummaryRow (Option Json)).count :=
  claim8_counts_positive.2 "data/meta.json" (Json.arr exampleRecs) "k"
    (summaryRows (extractValues "k" exampleRecs))
    ⟨none, 1, "25.000"⟩ (by decide) (by decide)

/-- C9: each aggregator is a pure function of its inputs, so two runs on
the same input produce identical summary tables; and in the JSON path,
ties in count are broken by the order in which values first occur in the
input: for every count value, the rows carrying that count list their
values in first-occurrence order. -/
theorem claim9_determinism :
    (∀ (srcA srcB : String) (tA tB : Table) (colA colB : String),
        srcA = srcB → tA = tB → colA = colB →
        compute_column_distribution srcA tA colA
          = compute_column_distribution srcB tB colB) ∧
    (∀ (srcA srcB : String) (dataA dataB : Json) (keyA keyB : String),
        srcA = srcB → dataA = dataB → keyA = keyB →
        compute_key_distribution srcA dataA keyA
          = compute_key_distribution srcB dataB keyB) ∧
    (∀ (src key : String) (recs : List Json)
        (rows : List (SummaryRow (Option Json))),
        compute_key_distribution src (Json.arr recs) key = .ok rows →
        ∀ c, (rows.filter (fun r => r.count = c)).map (fun r => r.value)
          = (firstOccs (extractValues key recs)).filter
              (fun v => countVal (extractValues key recs) v = c)) := by
  refine ⟨?_, ?_, ?_⟩
  · rintro src _ t _ col _ rfl rfl rfl
    rfl
  · rintro src _ data _ key _ rfl rfl rfl
    rfl
  · intro src key recs rows h c
    obtain ⟨recs2, heq, hrows⟩ := json_ok_inv h
    injection heq with heq
    subst heq
    rw [hrows]
    exact summaryRows_ties _ c

/-- Witness for C9: the tie between the null bucket and `b` (both count
1) in the JSON example is resolved in first-occurrence order. -/
theorem claim9_determinism_witness :
    ((summaryRows (extractValues "k" exampleRecs)).filter
        (fun r => r.count = 1)).map (fun r => r.value)
      = (firstOccs (extractValues "k" exampleRecs)).filter
          (fun v => countVal (extractValues "k" exampleRecs) v = 1) :=
  claim9_determinism.2.2 "data/meta.json" "k" exampleRecs
    (summaryRows (extractValues "k" exampleRecs)) (by decide) 1

/-- C10: the bar chart renderer rejects any summary table with fewer than
two columns before any named-column check runs; when no value column is
specified the first-column fallback can never itself fail, and only the
`count` column check can subsequently reject the table. -/
theorem claim10_plot_check :
    (∀ (src : String) (cols : List String) (vc : Option String),
        cols.length < 2 →
        plot_distribution_check src cols vc = .error (.tooFewColumns src)) ∧
    (∀ (src : String) (cols : List String) (c srcB : String),
        plot_distribution_check src cols none ≠ .error (.columnNotFound c srcB)) ∧
    (∀ (src : String) (cols : List String), 2 ≤ cols.length →
        plot_distribution_check src cols none = .error (.countNotFound src) ∨
        ∃ v, plot_distribution_check src cols none = .ok v) := by
  refine ⟨?_, ?_, ?_⟩
  · intro src cols vc h
    rw [plot_distribution_check, if_pos h]
  · intro src cols c srcB
    rw [plot_distribution_check]
    split_ifs with h1 h2 h3
    · simp
    · simp
    · simp
    · cases cols with
      | nil => exact absurd (by decide) h1
      | cons a rest => exact absurd (by simp) h2
  · intro src cols h
    rw [plot_distribution_check, if_neg (by omega)]
    cases cols with
    | nil => simp at h
    | cons a rest =>
      rw [if_pos (by simp [List.headD])]
      by_cases hc : "count" ∈ a :: rest
      · exact Or.inr ⟨_, by rw [if_pos hc]⟩
      · exact Or.inl (by rw [if_neg hc])

/-- Witness for C10: a one-column summary table is rejected for having
too few columns. -/
theorem claim10_plot_check_witness :
    plot_distribution_check "summary.csv" ["species_name"] none
      = .error (.tooFewColumns "summary.csv") :=
  claim10_plot_check.1 "summary.csv" ["species_name"] none (by decide)

end SeabirdDist
